import Mathlib

/-!
Shallow embedding of `src/main.py` of the `datenblaetter_extraktor` repository.

The program is a storage-triggered document pipeline: an HTTP entrypoint
receives an event describing an uploaded object, and
`process_document_from_gcs` runs a chain of gates (configuration, self-loop,
name pattern, content type, durable existence check, in-memory delivery
deduplication) before downloading the object, calling the Document AI
extraction service, writing a structured JSON result to the output bucket and
deleting the source object.

External collaborators (blob store, extraction client, wall clock) are made
explicit: the blob store is a function from (bucket, key) to an optional blob,
the extraction client is a function parameter, time is a `Nat` parameter, and
injectable fault flags model the failure modes of download, upload and delete.
-/

namespace Datenblaetter

/-- Page dimension of the extraction result (`document.pages[0].dimension`). -/
structure Dimension where
  width : ℚ
  height : ℚ
  unit : String
  deriving DecidableEq

/-- A page of the extraction result. -/
structure Page where
  dimension : Dimension
  deriving DecidableEq

/-- An entity of the extraction result: `entity.type_`, `entity.mention_text`,
`entity.confidence`, and the optional `entity.normalized_value.text`. -/
structure Entity where
  type_ : String
  mention_text : String
  confidence : ℚ
  normalized_value : Option String
  deriving DecidableEq

/-- The document returned by the extraction call (`result.document`). -/
structure Document where
  text : String
  pages : List Page
  entities : List Entity
  deriving DecidableEq

/-- One grouped entity entry of the persisted output
(`{"value": ..., "confidence": ..., "normalized_value": ...}`, main.py lines 202-206). -/
structure EntityOut where
  value : String
  confidence : ℚ
  normalized_value : Option String
  deriving DecidableEq

/-- The `document_info` part of the persisted output (main.py lines 178-183, 211-216). -/
structure DocumentInfo where
  filename : String
  processing_time : String
  processor_id : String
  total_pages : Nat
  dimensions : Option Dimension
  deriving DecidableEq

/-- The persisted output object (`extracted_data`, main.py lines 177-216).
`entities` is an association list because a Python dict preserves insertion
order: first-seen order of entity types, append order of values in a type. -/
structure OutputRecord where
  document_info : DocumentInfo
  entities : List (String × List EntityOut)
  raw_text : String
  deriving DecidableEq

/-- Content of a stored blob: either raw bytes (source documents) or the JSON
serialization of an `OutputRecord` (what `upload_from_string` persists). -/
inductive BlobData
  | raw (bytes : String)
  | jsonRecord (record : OutputRecord)
  deriving DecidableEq

/-- A stored object: content plus content type. -/
structure Blob where
  data : BlobData
  contentType : String
  deriving DecidableEq

/-- The blob store, addressed by (bucket, key). -/
abbrev Store := String → String → Option Blob

/-- Write (`some b`) or delete (`none`) the object at (bucket, key). -/
def Store.update (s : Store) (bucket key : String) (b : Option Blob) : Store :=
  fun bk k => if bk = bucket ∧ k = key then b else s bk k

/-- The process-wide `processed_events` dict: cache key to last-seen timestamp.
An association list models the dict (insertion order preserved). -/
abbrev Cache := List (String × Nat)

/-- Dict membership / read: the value stored under `key`, if present. -/
def cacheLookup : Cache → String → Option Nat
  | [], _ => none
  | (k, v) :: rest, key => if k = key then some v else cacheLookup rest key

/-- Dict assignment `processed_events[cache_key] = current_time` (main.py line 104):
update in place when the key is present, append otherwise. -/
def cacheSet (c : Cache) (key : String) (t : Nat) : Cache :=
  if (cacheLookup c key).isSome then
    c.map (fun p => if p.1 = key then (p.1, t) else p)
  else c ++ [(key, t)]

/-- The sweep of stale entries (main.py lines 107-109): drop every entry with
`current_time - v > 600`. -/
def cacheSweep (c : Cache) (now : Nat) : Cache :=
  c.filter (fun p => decide (now - p.2 ≤ 600))

/-- The composite cache key `f"{event_id}_{input_bucket_name}_{file_name}"` (line 94). -/
def cacheKeyOf (eid input_bucket_name file_name : String) : String :=
  eid ++ "_" ++ input_bucket_name ++ "_" ++ file_name

/-- Environment configuration (read from environment variables, lines 48-51).
`none` models a missing variable. -/
structure Env where
  gcp_project : Option String
  processor_location : Option String
  processor_id : Option String
  output_bucket : Option String

/-- Lines 47-55: all four variables must be present, otherwise `KeyError` is
caught and the function returns (`SkipConfigError`). -/
def readConfig (env : Env) : Option (String × String × String × String) :=
  match env.gcp_project, env.processor_location, env.processor_id, env.output_bucket with
  | some project_id, some location, some processor_id, some output_bucket_name =>
      some (project_id, location, processor_id, output_bucket_name)
  | _, _, _, _ => none

/-- The inbound event payload. `bucket` and `name` are `Option` because
`event["bucket"]` / `event["name"]` (lines 58-59) raise `KeyError` when the
field is missing; `contentType` is read with `event.get("contentType", "")`;
`eventId` is the optional body-carried delivery id (line 25). -/
structure Event where
  bucket : Option String
  name : Option String
  contentType : Option String
  eventId : Option String

/-- Injectable failure modes of the blob store calls. -/
structure Faults where
  downloadFails : String → String → Bool
  uploadFails : String → String → Bool
  deleteFails : String → String → Bool

/-- The processing decision of one invocation (spec section 3, plus the three
terminal pipeline outcomes). -/
inductive Outcome
  | skipConfigError
  | skipSelfLoop
  | skipAlreadyProcessedName
  | skipWrongType
  | skipAlreadyOutput
  | skipDuplicateDelivery
  | extractionFailed
  | writeFailed
  | success
  deriving DecidableEq

/-- The mutable world: blob store, dedup cache, and a counter of extraction
calls made (number of `process_document` requests sent). -/
structure World where
  store : Store
  cache : Cache
  extractionCalls : Nat

/-- Does `pat` occur at the start of `hay`? (helper for substring search). -/
def listStartsWith : List Char → List Char → Bool
  | _, [] => true
  | [], _ :: _ => false
  | a :: as, b :: bs => a == b && listStartsWith as bs

/-- Does `pat` occur anywhere in `hay`? (helper for Python `in` on strings). -/
def listContains (hay pat : List Char) : Bool :=
  match hay with
  | [] => listStartsWith [] pat
  | _ :: rest => listStartsWith hay pat || listContains rest pat

/-- Python `s.endswith(suffix)`. -/
def strEndsWith (s suffix : String) : Bool :=
  listStartsWith s.toList.reverse suffix.toList.reverse

/-- Python `pat in s` (substring containment). -/
def strContains (s pat : String) : Bool :=
  listContains s.toList pat.toList

/-- Line 70: `file_name.endswith('.txt') or '_verarbeitet' in file_name`. -/
def alreadyProcessedName (file_name : String) : Bool :=
  strEndsWith file_name ".txt" || strContains file_name "_verarbeitet"

/-- Index of the last occurrence of `c` in `cs`, `-1` if absent
(Python `str.rfind` on a single character). -/
def rfindChar (cs : List Char) (c : Char) : Int :=
  (cs.foldl (fun acc ch => (if ch = c then acc.2 else acc.1, acc.2 + 1))
    ((-1 : Int), (0 : Int))).1

/-- Is there a character other than `c` at an index in `[lo, hi)`? (the scan of
`posixpath.splitext` that refuses to treat leading dots as an extension). -/
def existsOtherChar (cs : List Char) (lo hi : Int) (c : Char) : Bool :=
  cs.enum.any (fun p => decide (lo ≤ (p.1 : Int)) && decide ((p.1 : Int) < hi)
    && decide (p.2 ≠ c))

/-- `os.path.splitext(p)[0]`: everything before the last dot of the basename,
provided a non-dot character stands between the last path separator and that
dot; otherwise the whole string. -/
def splitextRoot (p : String) : String :=
  if (rfindChar p.toList '.') > (rfindChar p.toList '/') then
    if existsOtherChar p.toList ((rfindChar p.toList '/') + 1) (rfindChar p.toList '.') '.' then
      String.mk (p.toList.take (rfindChar p.toList '.').toNat)
    else p
  else p

/-- The key queried by the durable existence check, line 84:
`f"{os.path.splitext(file_name)[0]}.txt"`. -/
def outputCheckKey (file_name : String) : String :=
  splitextRoot file_name ++ ".txt"

/-- The key written by the persistence step, line 219:
`f"{os.path.splitext(file_name)[0]}.json"`. -/
def outputWriteKey (file_name : String) : String :=
  splitextRoot file_name ++ ".json"

/-- Endpoint selection by region (lines 133-138). -/
def apiEndpoint (location : String) : String :=
  if location = "eu" then "eu-documentai.googleapis.com"
  else if location = "us" then "us-documentai.googleapis.com"
  else location ++ "-documentai.googleapis.com"

/-- The three cheap local gates, in source order (lines 65-77): self-loop,
name pattern, content type. `none` means all three pass. -/
def preGates (output_bucket_name input_bucket_name file_name content_type : String) :
    Option Outcome :=
  if input_bucket_name = output_bucket_name then some Outcome.skipSelfLoop
  else if alreadyProcessedName file_name then some Outcome.skipAlreadyProcessedName
  else if ¬ (content_type = "application/pdf") then some Outcome.skipWrongType
  else none

/-- The event deduplication block (lines 92-111). `none` means the delivery is
suppressed (seen within the 600 s TTL); `some cache` is the cache after
recording the delivery and sweeping stale entries (the cache is untouched when
no `event_id` is present). -/
def dedupCheck (cache : Cache) (event_id : Option String)
    (input_bucket_name file_name : String) (now : Nat) : Option Cache :=
  match event_id with
  | none => some cache
  | some eid =>
    match cacheLookup cache (cacheKeyOf eid input_bucket_name file_name) with
    | some prev =>
      if now - prev < 600 then none
      else some (cacheSweep (cacheSet cache (cacheKeyOf eid input_bucket_name file_name) now) now)
    | none => some (cacheSweep (cacheSet cache (cacheKeyOf eid input_bucket_name file_name) now) now)

/-- Line 202-206: one grouped entity entry built from an extraction entity. -/
def entityToOut (e : Entity) : EntityOut :=
  ⟨e.mention_text, e.confidence, e.normalized_value⟩

/-- Association-list read of the grouped-entities dict. -/
def lookupGroup : List (String × List EntityOut) → String → Option (List EntityOut)
  | [], _ => none
  | (k, v) :: rest, key => if k = key then some v else lookupGroup rest key

/-- One iteration of the entity loop (lines 191-206): create the list for a
first-seen type, then append the entry to its type's list. -/
def groupStep (acc : List (String × List EntityOut)) (e : Entity) :
    List (String × List EntityOut) :=
  if (lookupGroup acc e.type_).isSome then
    acc.map (fun q => if q.1 = e.type_ then (q.1, q.2 ++ [entityToOut e]) else q)
  else acc ++ [(e.type_, [entityToOut e])]

/-- The whole entity loop: fold `groupStep` over the entities in order. -/
def groupEntities (es : List Entity) : List (String × List EntityOut) :=
  es.foldl groupStep []

/-- Spec-side characterization (not taken from the source): the entity types
in order of first appearance, each type once. Used to state that the grouped
entities preserve first-seen order of entity types. -/
def firstSeen (ts : List String) : List String :=
  ts.foldl (fun a t => if t ∈ a then a else a ++ [t]) []

/-- Assembly of `extracted_data` (lines 177-216). -/
def buildRecord (file_name processor_id time_str : String) (doc : Document) :
    OutputRecord :=
  { document_info :=
      { filename := file_name
        processing_time := time_str
        processor_id := processor_id
        total_pages := if doc.pages.isEmpty then 0 else doc.pages.length
        dimensions :=
          match doc.pages with
          | [] => none
          | page0 :: _ => some page0.dimension }
    entities := if doc.entities.isEmpty then [] else groupEntities doc.entities
    raw_text := doc.text }

/-- Steps 4-6 of the pipeline (lines 150-244): download, extraction, write of
the JSON result, and the delete of the source gated on write success. The
extraction-call counter increases exactly when `process_document` is invoked. -/
def runPipeline (docai : BlobData → String → Option Document) (faults : Faults)
    (output_bucket_name processor_id input_bucket_name file_name content_type time_str : String)
    (w : World) : Outcome × World :=
  match (if faults.downloadFails input_bucket_name file_name then none
         else w.store input_bucket_name file_name) with
  | none => (Outcome.extractionFailed, w)
  | some blob =>
    match docai blob.data content_type with
    | none => (Outcome.extractionFailed, ⟨w.store, w.cache, w.extractionCalls + 1⟩)
    | some document =>
      if faults.uploadFails output_bucket_name (outputWriteKey file_name) then
        (Outcome.writeFailed, ⟨w.store, w.cache, w.extractionCalls + 1⟩)
      else
        if faults.deleteFails input_bucket_name file_name then
          (Outcome.success,
            ⟨Store.update w.store output_bucket_name (outputWriteKey file_name)
               (some ⟨BlobData.jsonRecord (buildRecord file_name processor_id time_str document),
                      "application/json; charset=utf-8"⟩),
             w.cache, w.extractionCalls + 1⟩)
        else
          (Outcome.success,
            ⟨Store.update
               (Store.update w.store output_bucket_name (outputWriteKey file_name)
                 (some ⟨BlobData.jsonRecord (buildRecord file_name processor_id time_str document),
                        "application/json; charset=utf-8"⟩))
               input_bucket_name file_name none,
             w.cache, w.extractionCalls + 1⟩)

/-- `process_document_from_gcs` (lines 33-244): configuration, event fields,
gates (including the duplicated block at lines 113-126), existence check,
delivery deduplication, then the pipeline. `Except.error` models the uncaught
`KeyError` raised by `event["bucket"]` / `event["name"]`. -/
def process_document_from_gcs (env : Env) (docai : BlobData → String → Option Document)
    (faults : Faults) (event : Event) (event_id : Option String)
    (now : Nat) (time_str : String) (w : World) : Except String (Outcome × World) :=
  match readConfig env with
  | none => Except.ok (Outcome.skipConfigError, w)
  | some (_project_id, _location, processor_id, output_bucket_name) =>
    match event.bucket, event.name with
    | some input_bucket_name, some file_name =>
      match preGates output_bucket_name input_bucket_name file_name (event.contentType.getD "") with
      | some d => Except.ok (d, w)
      | none =>
        if (w.store output_bucket_name (outputCheckKey file_name)).isSome then
          Except.ok (Outcome.skipAlreadyOutput, w)
        else
          match dedupCheck w.cache event_id input_bucket_name file_name now with
          | none => Except.ok (Outcome.skipDuplicateDelivery, w)
          | some cache1 =>
            match preGates output_bucket_name input_bucket_name file_name (event.contentType.getD "") with
            | some d => Except.ok (d, ⟨w.store, cache1, w.extractionCalls⟩)
            | none =>
              Except.ok (runPipeline docai faults output_bucket_name processor_id
                input_bucket_name file_name (event.contentType.getD "") time_str
                ⟨w.store, cache1, w.extractionCalls⟩)
    | _, _ => Except.error "KeyError: bucket or name missing"

/-- The HTTP entrypoint (lines 16-31): normalize the delivery id from the
header or the body, invoke the pipeline unguarded, answer `("", 204)`. An
exception of the pipeline propagates across the HTTP boundary. -/
def http_entrypoint (env : Env) (docai : BlobData → String → Option Document)
    (faults : Faults) (headerEventId : Option String) (event : Event)
    (now : Nat) (time_str : String) (w : World) :
    Except String ((String × Nat) × World) :=
  match process_document_from_gcs env docai faults event
      (match headerEventId with
       | some h => some h
       | none => event.eventId) now time_str w with
  | Except.ok (_, w') => Except.ok (("", 204), w')
  | Except.error e => Except.error e

/-- The outcome of a pipeline invocation, `none` when it raised. -/
def outcomeOf : Except String (Outcome × World) → Option Outcome
  | Except.ok (d, _) => some d
  | Except.error _ => none

/-- The world after a pipeline invocation (default world when it raised). -/
def worldOf : Except String (Outcome × World) → World → World
  | Except.ok (_, w), _ => w
  | Except.error _, dflt => dflt

/-! ### Concrete collaborators and scenario inputs used by the closed theorems -/

/-- A complete configuration. -/
def envOk : Env := ⟨some "proj", some "eu", some "proc1", some "out"⟩

/-- The confidence 0.91 as a rational number (91/100 in lowest terms). -/
def conf091 : ℚ := ⟨91, 100, by decide, by decide⟩

/-- The extraction result of the spec's scenario: text "Total: 42.00" and one
entity `total_amount` with mention "42.00" and confidence 0.91. -/
def docScenario : Document :=
  ⟨"Total: 42.00", [], [⟨"total_amount", "42.00", conf091, none⟩]⟩

/-- An extraction client that always succeeds with `docScenario`. -/
def docaiOk : BlobData → String → Option Document := fun _ _ => some docScenario

/-- An extraction client that always fails (remote error). -/
def docaiFail : BlobData → String → Option Document := fun _ _ => none

/-- No injected storage faults. -/
def noFaults : Faults := ⟨fun _ _ => false, fun _ _ => false, fun _ _ => false⟩

/-- Source deletion fails (non-fatal cleanup failure). -/
def keepSourceFaults : Faults := ⟨fun _ _ => false, fun _ _ => false, fun _ _ => true⟩

/-- Every output write fails. -/
def uploadFailsAll : Faults := ⟨fun _ _ => false, fun _ _ => true, fun _ _ => false⟩

/-- The empty blob store. -/
def emptyStore : Store := fun _ _ => none

/-- The source object of the scenario. -/
def srcBlob : Blob := ⟨BlobData.raw "PDFBYTES", "application/pdf"⟩

/-- A store holding only `gs://in/invoice123.pdf`. -/
def store0 : Store := Store.update emptyStore "in" "invoice123.pdf" (some srcBlob)

/-- Initial world: the source object, an empty cache, no extraction calls. -/
def w0 : World := ⟨store0, [], 0⟩

/-- The scenario notification: `invoice123.pdf`, `application/pdf`. -/
def eventPdf : Event := ⟨some "in", some "invoice123.pdf", some "application/pdf", none⟩

/-- A notification for `report.json` (an artifact of the kind the pipeline
itself writes). -/
def c2event : Event := ⟨some "in", some "report.json", some "application/json", none⟩

/-- First invocation of the idempotence scenario: successful, with the delete
of the source failing non-fatally so that the source object survives. -/
def c1run1 : Except String (Outcome × World) :=
  process_document_from_gcs envOk docaiOk keepSourceFaults eventPdf none 0 "t0" w0

/-- The world after the first invocation. -/
def c1w1 : World := worldOf c1run1 w0

/-- Second invocation for the same source object, no intervening deletion of
the output. -/
def c1run2 : Except String (Outcome × World) :=
  process_document_from_gcs envOk docaiOk keepSourceFaults eventPdf none 10 "t1" c1w1

/-- The scenario run of the spec: success with entity `total_amount`. -/
def c4run : Except String (Outcome × World) :=
  process_document_from_gcs envOk docaiOk noFaults eventPdf none 5 "t" w0

/-- The output record the scenario must persist. -/
def c4expected : OutputRecord :=
  ⟨⟨"invoice123.pdf", "t", "proc1", 0, none⟩,
   [("total_amount", [⟨"42.00", conf091, none⟩])], "Total: 42.00"⟩

/-- A run with every output write failing. -/
def c5run : Except String (Outcome × World) :=
  process_document_from_gcs envOk docaiOk uploadFailsAll eventPdf none 3 "t" w0

/-- A run with a delivery id whose extraction fails. -/
def c6run : Except String (Outcome × World) :=
  process_document_from_gcs envOk docaiFail noFaults eventPdf (some "e1") 50 "t" w0

/-- A successful first delivery with id e7 at time 100. -/
def c7run1 : Except String (Outcome × World) :=
  process_document_from_gcs envOk docaiOk noFaults eventPdf (some "e7") 100 "t" w0

/-- The world after the first e7 delivery. -/
def c7w1 : World := worldOf c7run1 w0

/-- A world whose cache already holds the e7 delivery entry at timestamp 100. -/
def c7cacheWorld : World := ⟨store0, [("e7_in_invoice123.pdf", 100)], 0⟩

/-- A failing first delivery with id e8 at time 200. -/
def c8run1 : Except String (Outcome × World) :=
  process_document_from_gcs envOk docaiFail noFaults eventPdf (some "e8") 200 "t" w0

/-- The world after the failing e8 delivery. -/
def c8w1 : World := worldOf c8run1 w0

/-- A successful run without any delivery id. -/
def c9run : Except String (Outcome × World) :=
  process_document_from_gcs envOk docaiOk noFaults eventPdf none 7 "t" w0

/-- First page dimension of the two-page extraction result. -/
def dim2p : Dimension := ⟨⟨85, 1, by decide, by decide⟩, ⟨11, 1, by decide, by decide⟩, "inch"⟩

/-- Second page dimension of the two-page extraction result. -/
def dim2q : Dimension := ⟨⟨5, 1, by decide, by decide⟩, ⟨6, 1, by decide, by decide⟩, "inch"⟩

/-- A two-page extraction result without entities. -/
def doc2p : Document := ⟨"x", [⟨dim2p⟩, ⟨dim2q⟩], []⟩

/-- An extraction client returning the two-page document. -/
def docaiTwoPages : BlobData → String → Option Document := fun _ _ => some doc2p

/-- A successful run persisting the two-page document. -/
def c10run : Except String (Outcome × World) :=
  process_document_from_gcs envOk docaiTwoPages noFaults eventPdf none 9 "t9" w0

/-- The record the two-page run must persist. -/
def c10expected : OutputRecord :=
  ⟨⟨"invoice123.pdf", "t9", "proc1", 2, some dim2p⟩, [], "x"⟩

/-! ### Lemmas and claim theorems -/


lemma preGates_skip (ob ib fn ct : String) (d0 : Outcome)
    (h : preGates ob ib fn ct = some d0) :
    d0 = Outcome.skipSelfLoop ∨ d0 = Outcome.skipAlreadyProcessedName ∨
      d0 = Outcome.skipWrongType := by
  unfold preGates at h
  split at h
  · exact Or.inl (Option.some.inj h).symm
  · split at h
    · exact Or.inr (Or.inl (Option.some.inj h).symm)
    · split at h
      · exact Or.inr (Or.inr (Option.some.inj h).symm)
      · exact Option.noConfusion h

lemma preGates_none_iff (ob ib fn ct : String) :
    preGates ob ib fn ct = none ↔
      (ib ≠ ob ∧ alreadyProcessedName fn = false ∧ ct = "application/pdf") := by
  unfold preGates
  by_cases h1 : ib = ob <;> by_cases h2 : alreadyProcessedName fn = true <;>
    by_cases h3 : ct = "application/pdf" <;>
    simp [h1, h2, h3]

lemma runPipeline_inv (docai : BlobData → String → Option Document) (faults : Faults)
    (ob pid ib fn ct ts : String) (win : World) (d : Outcome) (w' : World)
    (h : runPipeline docai faults ob pid ib fn ct ts win = (d, w')) :
    w'.cache = win.cache ∧
    (d = Outcome.extractionFailed ∨ d = Outcome.writeFailed ∨ d = Outcome.success) ∧
    (d ≠ Outcome.success → w'.store = win.store) ∧
    (d = Outcome.writeFailed → faults.uploadFails ob (outputWriteKey fn) = true) ∧
    (∀ b k, ¬ (b = ob ∧ k = outputWriteKey fn) → ¬ (b = ib ∧ k = fn) →
      w'.store b k = win.store b k) := by
  unfold runPipeline at h
  split at h
  · injection h with h1 h2
    subst h1; subst h2
    exact ⟨rfl, Or.inl rfl, fun _ => rfl, fun hc => Outcome.noConfusion hc,
      fun _ _ _ _ => rfl⟩
  · split at h
    · injection h with h1 h2
      subst h1; subst h2
      exact ⟨rfl, Or.inl rfl, fun _ => rfl, fun hc => Outcome.noConfusion hc,
        fun _ _ _ _ => rfl⟩
    · split at h
      case isTrue hup =>
        injection h with h1 h2
        subst h1; subst h2
        exact ⟨rfl, Or.inr (Or.inl rfl), fun _ => rfl, fun _ => hup, fun _ _ _ _ => rfl⟩
      case isFalse hup =>
        split at h
        · injection h with h1 h2
          subst h1; subst h2
          refine ⟨rfl, Or.inr (Or.inr rfl), fun hc => absurd rfl hc,
            fun hc => Outcome.noConfusion hc, fun b k hbk1 _ => ?_⟩
          show (if b = ob ∧ k = outputWriteKey fn then _ else win.store b k) = win.store b k
          rw [if_neg hbk1]
        · injection h with h1 h2
          subst h1; subst h2
          refine ⟨rfl, Or.inr (Or.inr rfl), fun hc => absurd rfl hc,
            fun hc => Outcome.noConfusion hc, fun b k hbk1 hbk2 => ?_⟩
          show Store.update (Store.update win.store ob (outputWriteKey fn) _) ib fn none b k
            = win.store b k
          unfold Store.update
          rw [if_neg hbk2, if_neg hbk1]

lemma process_inv (env : Env) (docai : BlobData → String → Option Document)
    (faults : Faults) (event : Event) (eid : Option String) (now : Nat) (ts : String)
    (w : World) (d : Outcome) (w' : World)
    (h : process_document_from_gcs env docai faults event eid now ts w = Except.ok (d, w')) :
    (d ≠ Outcome.success → w'.store = w.store) ∧
    (d = Outcome.writeFailed → ∃ a b c ob, readConfig env = some (a, b, c, ob) ∧
      ∃ fn, event.name = some fn ∧ faults.uploadFails ob (outputWriteKey fn) = true) ∧
    (eid = none → w'.cache = w.cache ∧ d ≠ Outcome.skipDuplicateDelivery) := by
  unfold process_document_from_gcs at h
  split at h
  case _ =>
    injection h with h1
    injection h1 with hd hw
    subst hd; subst hw
    exact ⟨fun _ => rfl, fun hc => Outcome.noConfusion hc,
      fun _ => ⟨rfl, fun hc => Outcome.noConfusion hc⟩⟩
  case _ a b c ob hcfg =>
    split at h
    case _ ib fn hib hfn =>
      split at h
      case _ d0 hpre =>
        injection h with h1
        injection h1 with hd hw
        subst hd; subst hw
        refine ⟨fun _ => rfl, fun hc => ?_, fun _ => ⟨rfl, fun hc => ?_⟩⟩ <;>
          (rcases preGates_skip _ _ _ _ _ hpre with h' | h' | h' <;>
            (rw [hc] at h'; exact Outcome.noConfusion h'))
      case _ hpre =>
        split at h
        case isTrue hex =>
          injection h with h1
          injection h1 with hd hw
          subst hd; subst hw
          exact ⟨fun _ => rfl, fun hc => Outcome.noConfusion hc,
            fun _ => ⟨rfl, fun hc => Outcome.noConfusion hc⟩⟩
        case isFalse hex =>
          split at h
          case _ hdc =>
            injection h with h1
            injection h1 with hd hw
            subst hd; subst hw
            refine ⟨fun _ => rfl, fun hc => Outcome.noConfusion hc, fun heid => ?_⟩
            subst heid
            simp [dedupCheck] at hdc
          case _ cache1 hdc =>
            have hcache1 : eid = none → cache1 = w.cache := by
              intro heid; subst heid
              simp [dedupCheck] at hdc
              exact hdc.symm
            split at h
            case _ d0 hpre2 =>
              exact Option.noConfusion hpre2
            case _ hpre2 =>
              injection h with h1
              obtain ⟨hc, hdo, hst, hwf, _hfr⟩ :=
                runPipeline_inv _ _ _ _ _ _ _ _ _ _ _ h1
              refine ⟨fun hns => hst hns, fun hwf' => ⟨a, b, c, ob, hcfg, fn, hfn, hwf hwf'⟩,
                fun heid => ⟨?_, ?_⟩⟩
              · rw [hc]; exact hcache1 heid
              · rcases hdo with h' | h' | h' <;>
                  (subst h'; exact fun hc2 => Outcome.noConfusion hc2)
    case _ h1 h2 =>
      cases h


lemma cacheLookup_append (c1 c2 : Cache) (k : String) :
    cacheLookup (c1 ++ c2) k =
      match cacheLookup c1 k with
      | some v => some v
      | none => cacheLookup c2 k := by
  induction c1 with
  | nil => rfl
  | cons p rest ih =>
    obtain ⟨k', v⟩ := p
    by_cases h : k' = k
    · subst h; simp [cacheLookup]
    · simp [cacheLookup, h, ih]

lemma cacheLookup_isSome_of_mem (c : Cache) (p : String × Nat) (hp : p ∈ c) :
    (cacheLookup c p.1).isSome = true := by
  induction c with
  | nil => cases hp
  | cons q rest ih =>
    obtain ⟨k', v⟩ := q
    rcases List.mem_cons.mp hp with h | h
    · subst h; simp [cacheLookup]
    · by_cases hk : k' = p.1
      · subst hk; simp [cacheLookup]
      · simp [cacheLookup, hk, ih h]

lemma cacheLookup_map_set (c : Cache) (k : String) (t : Nat) :
    cacheLookup (c.map (fun p => if p.1 = k then (p.1, t) else p)) k =
      if (cacheLookup c k).isSome then some t else none := by
  induction c with
  | nil => rfl
  | cons p rest ih =>
    obtain ⟨k', v⟩ := p
    simp only [List.map_cons]
    by_cases h : k' = k
    · subst h
      rw [if_pos rfl]
      simp [cacheLookup]
    · rw [if_neg h]
      simp [cacheLookup, h, ih]

lemma cacheLookup_set (c : Cache) (k : String) (t : Nat) :
    cacheLookup (cacheSet c k t) k = some t := by
  unfold cacheSet
  split
  case isTrue h =>
    rw [cacheLookup_map_set]
    simp [h]
  case isFalse h =>
    rw [cacheLookup_append]
    cases hl : cacheLookup c k with
    | none => simp [cacheLookup]
    | some v => rw [hl] at h; simp at h

lemma cacheSet_entries (c : Cache) (k : String) (t : Nat) (p : String × Nat)
    (hp : p ∈ cacheSet c k t) (hk : p.1 = k) : p.2 = t := by
  unfold cacheSet at hp
  split at hp
  case isTrue h =>
    rcases List.mem_map.mp hp with ⟨q, hq, hfq⟩
    by_cases hq1 : q.1 = k
    · rw [if_pos hq1] at hfq
      rw [← hfq]
    · rw [if_neg hq1] at hfq
      rw [← hfq] at hk
      exact absurd hk hq1
  case isFalse h =>
    rcases List.mem_append.mp hp with hmem | hmem
    · have := cacheLookup_isSome_of_mem c p hmem
      rw [hk] at this
      exact absurd this h
    · rcases List.mem_singleton.mp hmem with h'
      rw [h']

lemma cacheLookup_filter (c : Cache) (k : String) (q : String × Nat → Bool)
    (h : ∀ p ∈ c, p.1 = k → q p = true) :
    cacheLookup (c.filter q) k = cacheLookup c k := by
  induction c with
  | nil => rfl
  | cons p rest ih =>
    obtain ⟨k', v⟩ := p
    have ihrest := ih (fun p hp => h p (List.mem_cons_of_mem _ hp))
    by_cases hk : k' = k
    · subst hk
      have hq : q (k', v) = true := h (k', v) (List.mem_cons_self _ _) rfl
      simp [List.filter_cons, hq, cacheLookup]
    · cases hq : q (k', v) <;> simp [List.filter_cons, hq, cacheLookup, hk, ihrest]

lemma cacheLookup_set_sweep (c : Cache) (k : String) (t n : Nat) (h : n - t ≤ 600) :
    cacheLookup (cacheSweep (cacheSet c k t) n) k = some t := by
  unfold cacheSweep
  rw [cacheLookup_filter]
  · exact cacheLookup_set c k t
  · intro p hp hpk
    have := cacheSet_entries c k t p hp hpk
    rw [this]
    exact decide_eq_true h

lemma string_data_append (a b : String) : (a ++ b).data = a.data ++ b.data := by
  cases a; cases b; rfl

lemma checkKey_ne_writeKey (fn : String) : outputCheckKey fn ≠ outputWriteKey fn := by
  intro h
  unfold outputCheckKey outputWriteKey at h
  have h2 := congrArg String.data h
  rw [string_data_append, string_data_append] at h2
  have h3 := congrArg List.length h2
  rw [List.length_append, List.length_append] at h3
  have h4 : (".txt".data).length = 4 := rfl
  have h5 : (".json".data).length = 5 := rfl
  omega

lemma dedupCheck_some_some (cache : Cache) (e ib fn : String) (now : Nat) (cache1 : Cache)
    (h : dedupCheck cache (some e) ib fn now = some cache1) :
    cache1 = cacheSweep (cacheSet cache (cacheKeyOf e ib fn) now) now := by
  simp only [dedupCheck] at h
  split at h
  case _ prev hl =>
    split at h
    · exact Option.noConfusion h
    · exact (Option.some.inj h).symm
  case _ hl => exact (Option.some.inj h).symm

lemma dedupCheck_hit (cache : Cache) (e ib fn : String) (now prev : Nat)
    (hl : cacheLookup cache (cacheKeyOf e ib fn) = some prev) (h : now - prev < 600) :
    dedupCheck cache (some e) ib fn now = none := by
  simp only [dedupCheck]
  rw [hl]
  simp [h]

lemma dedupCheck_stale (cache : Cache) (e ib fn : String) (now prev : Nat)
    (hl : cacheLookup cache (cacheKeyOf e ib fn) = some prev) (h : ¬ (now - prev < 600)) :
    dedupCheck cache (some e) ib fn now
      = some (cacheSweep (cacheSet cache (cacheKeyOf e ib fn) now) now) := by
  simp only [dedupCheck]
  rw [hl]
  simp [h]

lemma process_dup_skip (env : Env) (docai : BlobData → String → Option Document)
    (faults : Faults) (event : Event) (e : String) (now : Nat) (ts : String) (w : World)
    (a b c ob ib fn : String)
    (hcfg : readConfig env = some (a, b, c, ob))
    (hib : event.bucket = some ib) (hfn : event.name = some fn)
    (hpre : preGates ob ib fn (event.contentType.getD "") = none)
    (hex : w.store ob (outputCheckKey fn) = none)
    (hdc : dedupCheck w.cache (some e) ib fn now = none) :
    process_document_from_gcs env docai faults event (some e) now ts w
      = Except.ok (Outcome.skipDuplicateDelivery, w) := by
  unfold process_document_from_gcs
  simp [hcfg, hib, hfn, hpre, hex, hdc]

lemma process_runs_pipeline (env : Env) (docai : BlobData → String → Option Document)
    (faults : Faults) (event : Event) (eid : Option String) (now : Nat) (ts : String)
    (w : World) (a b c ob ib fn : String) (cache1 : Cache)
    (hcfg : readConfig env = some (a, b, c, ob))
    (hib : event.bucket = some ib) (hfn : event.name = some fn)
    (hpre : preGates ob ib fn (event.contentType.getD "") = none)
    (hex : w.store ob (outputCheckKey fn) = none)
    (hdc : dedupCheck w.cache eid ib fn now = some cache1) :
    process_document_from_gcs env docai faults event eid now ts w
      = Except.ok (runPipeline docai faults ob c ib fn (event.contentType.getD "") ts
          ⟨w.store, cache1, w.extractionCalls⟩) := by
  unfold process_document_from_gcs
  simp [hcfg, hib, hfn, hpre, hex, hdc]


lemma dedupCheck_fresh (cache : Cache) (e ib fn : String) (now : Nat)
    (hl : cacheLookup cache (cacheKeyOf e ib fn) = none) :
    dedupCheck cache (some e) ib fn now
      = some (cacheSweep (cacheSet cache (cacheKeyOf e ib fn) now) now) := by
  simp only [dedupCheck]
  rw [hl]

lemma process_pre_skip (env : Env) (docai : BlobData → String → Option Document)
    (faults : Faults) (event : Event) (eid : Option String) (now : Nat) (ts : String)
    (w : World) (a b c ob ib fn : String) (d0 : Outcome)
    (hcfg : readConfig env = some (a, b, c, ob))
    (hib : event.bucket = some ib) (hfn : event.name = some fn)
    (hpre : preGates ob ib fn (event.contentType.getD "") = some d0) :
    process_document_from_gcs env docai faults event eid now ts w = Except.ok (d0, w) := by
  unfold process_document_from_gcs
  simp [hcfg, hib, hfn, hpre]

lemma process_exists_skip (env : Env) (docai : BlobData → String → Option Document)
    (faults : Faults) (event : Event) (eid : Option String) (now : Nat) (ts : String)
    (w : World) (a b c ob ib fn : String)
    (hcfg : readConfig env = some (a, b, c, ob))
    (hib : event.bucket = some ib) (hfn : event.name = some fn)
    (hpre : preGates ob ib fn (event.contentType.getD "") = none)
    (hex : (w.store ob (outputCheckKey fn)).isSome = true) :
    process_document_from_gcs env docai faults event eid now ts w
      = Except.ok (Outcome.skipAlreadyOutput, w) := by
  unfold process_document_from_gcs
  simp [hcfg, hib, hfn, hpre, hex]

lemma proceed_inv (env : Env) (docai : BlobData → String → Option Document)
    (faults : Faults) (event : Event) (eid : Option String) (now : Nat) (ts : String)
    (w : World) (d : Outcome) (w' : World) (a b c ob ib fn : String)
    (hcfg : readConfig env = some (a, b, c, ob))
    (hib : event.bucket = some ib) (hfn : event.name = some fn)
    (h : process_document_from_gcs env docai faults event eid now ts w = Except.ok (d, w'))
    (hd : d = Outcome.extractionFailed ∨ d = Outcome.writeFailed ∨ d = Outcome.success) :
    preGates ob ib fn (event.contentType.getD "") = none ∧
    w.store ob (outputCheckKey fn) = none ∧
    (eid = none → w'.cache = w.cache) ∧
    (∀ e, eid = some e →
      w'.cache = cacheSweep (cacheSet w.cache (cacheKeyOf e ib fn) now) now) ∧
    (∀ b2 k2, ¬ (b2 = ob ∧ k2 = outputWriteKey fn) → ¬ (b2 = ib ∧ k2 = fn) →
      w'.store b2 k2 = w.store b2 k2) := by
  unfold process_document_from_gcs at h
  split at h
  case _ hcfg2 =>
    rw [hcfg] at hcfg2
    exact Option.noConfusion hcfg2
  case _ a2 b2 c2 ob2 hcfg2 =>
    rw [hcfg] at hcfg2
    injection hcfg2 with h1
    injection h1 with ha h1
    injection h1 with hb h1
    injection h1 with hc hob
    subst ha; subst hb; subst hc; subst hob
    split at h
    case _ ib2 fn2 hib2 hfn2 =>
      rw [hib] at hib2
      injection hib2 with hib3
      subst hib3
      rw [hfn] at hfn2
      injection hfn2 with hfn3
      subst hfn3
      split at h
      case _ d0 hpre =>
        injection h with h1
        injection h1 with hd2 hw2
        subst hd2
        rcases preGates_skip _ _ _ _ _ hpre with h' | h' | h' <;>
          (rcases hd with hc2 | hc2 | hc2 <;> (rw [hc2] at h'; exact Outcome.noConfusion h'))
      case _ hpre =>
        split at h
        case isTrue hex =>
          injection h with h1
          injection h1 with hd2 hw2
          subst hd2
          rcases hd with hc2 | hc2 | hc2 <;> exact Outcome.noConfusion hc2
        case isFalse hex =>
          have hexn : w.store ob (outputCheckKey fn) = none := by
            cases ho : w.store ob (outputCheckKey fn) with
            | none => rfl
            | some bb => rw [ho] at hex; simp at hex
          split at h
          case _ hdc =>
            injection h with h1
            injection h1 with hd2 hw2
            subst hd2
            rcases hd with hc2 | hc2 | hc2 <;> exact Outcome.noConfusion hc2
          case _ cache1 hdc =>
            split at h
            case _ d0 hpre2 =>
              exact Option.noConfusion hpre2
            case _ hpre2 =>
              injection h with h1
              obtain ⟨hcch, hdo, hst, hwf, hfr⟩ :=
                runPipeline_inv _ _ _ _ _ _ _ _ _ _ _ h1
              refine ⟨hpre, hexn, fun heid => ?_, fun e heid => ?_, fun b2 k2 hk1 hk2 => ?_⟩
              · subst heid
                simp [dedupCheck] at hdc
                rw [hcch, ← hdc]
              · subst heid
                rw [hcch]
                exact dedupCheck_some_some _ _ _ _ _ _ hdc
              · rw [hfr b2 k2 hk1 hk2]
    case _ hh1 hh2 =>
      cases h

lemma runPipeline_cache_irrel (docai : BlobData → String → Option Document)
    (faults : Faults) (ob pid ib fn ct ts : String) (s : Store) (c c' : Cache) (n : Nat) :
    (runPipeline docai faults ob pid ib fn ct ts ⟨s, c, n⟩).1
      = (runPipeline docai faults ob pid ib fn ct ts ⟨s, c', n⟩).1 ∧
    (runPipeline docai faults ob pid ib fn ct ts ⟨s, c, n⟩).2.store
      = (runPipeline docai faults ob pid ib fn ct ts ⟨s, c', n⟩).2.store ∧
    (runPipeline docai faults ob pid ib fn ct ts ⟨s, c, n⟩).2.extractionCalls
      = (runPipeline docai faults ob pid ib fn ct ts ⟨s, c', n⟩).2.extractionCalls := by
  simp only [runPipeline]
  cases hdl : (if faults.downloadFails ib fn then none else s ib fn) with
  | none => simp [hdl]
  | some blob =>
    cases hdoc : docai blob.data ct with
    | none => simp [hdl, hdoc]
    | some document =>
      by_cases hup : faults.uploadFails ob (outputWriteKey fn) = true
      · simp [hdl, hdoc, hup]
      · by_cases hdel : faults.deleteFails ib fn = true <;> simp [hdl, hdoc, hup, hdel]

lemma process_eid_fresh (env : Env) (docai : BlobData → String → Option Document)
    (faults : Faults) (event : Event) (now : Nat) (ts : String) (w : World)
    (e : String) (d : Outcome) (w' : World) (a b c ob ib fn : String)
    (hcfg : readConfig env = some (a, b, c, ob))
    (hib : event.bucket = some ib) (hfn : event.name = some fn)
    (hfresh : cacheLookup w.cache (cacheKeyOf e ib fn) = none)
    (h : process_document_from_gcs env docai faults event none now ts w = Except.ok (d, w')) :
    ∃ w2, process_document_from_gcs env docai faults event (some e) now ts w
        = Except.ok (d, w2) ∧
      w2.store = w'.store ∧ w2.extractionCalls = w'.extractionCalls := by
  cases hpre : preGates ob ib fn (event.contentType.getD "") with
  | some d0 =>
    rw [process_pre_skip env docai faults event none now ts w a b c ob ib fn d0
      hcfg hib hfn hpre] at h
    injection h with h1
    injection h1 with hd2 hw2
    subst hd2; subst hw2
    exact ⟨w, process_pre_skip env docai faults event (some e) now ts w a b c ob ib fn d0
      hcfg hib hfn hpre, rfl, rfl⟩
  | none =>
    by_cases hex : (w.store ob (outputCheckKey fn)).isSome = true
    · rw [process_exists_skip env docai faults event none now ts w a b c ob ib fn
        hcfg hib hfn hpre hex] at h
      injection h with h1
      injection h1 with hd2 hw2
      subst hd2; subst hw2
      exact ⟨w, process_exists_skip env docai faults event (some e) now ts w a b c ob ib fn
        hcfg hib hfn hpre hex, rfl, rfl⟩
    · have hexn : w.store ob (outputCheckKey fn) = none := by
        cases ho : w.store ob (outputCheckKey fn) with
        | none => rfl
        | some bb => rw [ho] at hex; simp at hex
      have hdc1 : dedupCheck w.cache none ib fn now = some w.cache := rfl
      have hdc2 := dedupCheck_fresh w.cache e ib fn now hfresh
      rw [process_runs_pipeline env docai faults event none now ts w a b c ob ib fn
        w.cache hcfg hib hfn hpre hexn hdc1] at h
      injection h with h1
      rw [process_runs_pipeline env docai faults event (some e) now ts w a b c ob ib fn
        (cacheSweep (cacheSet w.cache (cacheKeyOf e ib fn) now) now)
        hcfg hib hfn hpre hexn hdc2]
      obtain ⟨ho1, ho2, ho3⟩ := runPipeline_cache_irrel docai faults ob c ib fn
        (event.contentType.getD "") ts w.store w.cache
        (cacheSweep (cacheSet w.cache (cacheKeyOf e ib fn) now) now) w.extractionCalls
      have hx1 : (runPipeline docai faults ob c ib fn (event.contentType.getD "") ts
          ⟨w.store, cacheSweep (cacheSet w.cache (cacheKeyOf e ib fn) now) now,
           w.extractionCalls⟩).1 = d := by
        rw [← ho1, h1]
      refine ⟨(runPipeline docai faults ob c ib fn (event.contentType.getD "") ts
        ⟨w.store, cacheSweep (cacheSet w.cache (cacheKeyOf e ib fn) now) now,
         w.extractionCalls⟩).2, ?_, ?_, ?_⟩
      · rw [← hx1]
      · rw [← ho2, h1]
      · rw [← ho3, h1]

lemma process_no_error (env : Env) (docai : BlobData → String → Option Document)
    (faults : Faults) (ib fn : String) (ct ev : Option String) (eid : Option String)
    (now : Nat) (ts : String) (w : World) :
    ∃ d w', process_document_from_gcs env docai faults ⟨some ib, some fn, ct, ev⟩ eid now ts w
      = Except.ok (d, w') := by
  unfold process_document_from_gcs
  repeat' split
  all_goals exact ⟨_, _, rfl⟩


lemma lookupGroup_append (l1 l2 : List (String × List EntityOut)) (t : String) :
    lookupGroup (l1 ++ l2) t =
      match lookupGroup l1 t with
      | some v => some v
      | none => lookupGroup l2 t := by
  induction l1 with
  | nil => rfl
  | cons q rest ih =>
    obtain ⟨k, v⟩ := q
    by_cases h : k = t
    · subst h; simp [lookupGroup]
    · simp [lookupGroup, h, ih]

lemma lookupGroup_isSome_iff (acc : List (String × List EntityOut)) (t : String) :
    (lookupGroup acc t).isSome = true ↔ t ∈ acc.map Prod.fst := by
  induction acc with
  | nil => simp [lookupGroup]
  | cons q rest ih =>
    obtain ⟨k, v⟩ := q
    by_cases h : k = t
    · subst h; simp [lookupGroup]
    · have h' : ¬ t = k := fun hh => h hh.symm
      simp [lookupGroup, h, h', ih]

lemma lookupGroup_mapUpdate (acc : List (String × List EntityOut)) (s t : String)
    (x : EntityOut) :
    lookupGroup (acc.map (fun q => if q.1 = s then (q.1, q.2 ++ [x]) else q)) t =
      if s = t then (lookupGroup acc t).map (fun l => l ++ [x])
      else lookupGroup acc t := by
  induction acc with
  | nil => by_cases h : s = t <;> simp [h, lookupGroup]
  | cons q rest ih =>
    obtain ⟨k, v⟩ := q
    simp only [List.map_cons]
    by_cases hks : k = s
    · subst hks
      rw [if_pos rfl]
      by_cases hkt : k = t
      · subst hkt
        simp [lookupGroup]
      · simp [lookupGroup, hkt, ih]
    · rw [if_neg hks]
      by_cases hkt : k = t
      · subst hkt
        have hst : ¬ (s = k) := fun hh => hks hh.symm
        simp [lookupGroup, hst]
      · simp [lookupGroup, hkt, ih]

lemma mapfst_mapUpdate (acc : List (String × List EntityOut)) (s : String)
    (x : EntityOut) :
    (acc.map (fun q => if q.1 = s then (q.1, q.2 ++ [x]) else q)).map Prod.fst
      = acc.map Prod.fst := by
  induction acc with
  | nil => rfl
  | cons q rest ih =>
    obtain ⟨k, v⟩ := q
    simp only [List.map_cons]
    by_cases h : k = s
    · subst h; rw [if_pos rfl]; simp [ih]
    · rw [if_neg h]; simp [ih]

lemma groupStep_mapfst (acc : List (String × List EntityOut)) (e : Entity) :
    (groupStep acc e).map Prod.fst =
      if e.type_ ∈ acc.map Prod.fst then acc.map Prod.fst
      else acc.map Prod.fst ++ [e.type_] := by
  unfold groupStep
  split
  case isTrue h =>
    rw [mapfst_mapUpdate]
    rw [if_pos ((lookupGroup_isSome_iff acc e.type_).mp h)]
  case isFalse h =>
    have h2 : ¬ e.type_ ∈ acc.map Prod.fst :=
      fun hm => h ((lookupGroup_isSome_iff acc e.type_).mpr hm)
    rw [if_neg h2]
    simp

lemma foldl_groupStep_mapfst (es : List Entity) (acc : List (String × List EntityOut)) :
    (es.foldl groupStep acc).map Prod.fst =
      (es.map Entity.type_).foldl (fun a t => if t ∈ a then a else a ++ [t])
        (acc.map Prod.fst) := by
  induction es generalizing acc with
  | nil => rfl
  | cons e rest ih =>
    simp only [List.foldl_cons, List.map_cons]
    rw [ih, groupStep_mapfst]

lemma groupEntities_mapfst (es : List Entity) :
    (groupEntities es).map Prod.fst = firstSeen (es.map Entity.type_) := by
  unfold groupEntities firstSeen
  exact foldl_groupStep_mapfst es []

lemma lookupGroup_groupStep (acc : List (String × List EntityOut)) (e : Entity) (t : String) :
    lookupGroup (groupStep acc e) t =
      if e.type_ = t then
        match lookupGroup acc t with
        | some v => some (v ++ [entityToOut e])
        | none => some [entityToOut e]
      else lookupGroup acc t := by
  unfold groupStep
  split
  case isTrue h =>
    rw [lookupGroup_mapUpdate]
    by_cases het : e.type_ = t
    · subst het
      rw [if_pos rfl, if_pos rfl]
      cases hl : lookupGroup acc e.type_ with
      | none => rw [hl] at h; simp at h
      | some v => simp
    · rw [if_neg het, if_neg het]
  case isFalse h =>
    rw [lookupGroup_append]
    by_cases het : e.type_ = t
    · subst het
      have hl : lookupGroup acc e.type_ = none := by
        cases hl : lookupGroup acc e.type_ with
        | none => rfl
        | some v => rw [hl] at h; simp at h
      rw [hl, if_pos rfl]
      simp [lookupGroup]
    · rw [if_neg het]
      cases hl : lookupGroup acc t with
      | none => simp [lookupGroup, het]
      | some v => simp

lemma foldl_groupStep_lookup (es : List Entity) (acc : List (String × List EntityOut))
    (t : String) :
    lookupGroup (es.foldl groupStep acc) t =
      match lookupGroup acc t with
      | some v => some (v ++ (es.filter (fun e2 => decide (e2.type_ = t))).map entityToOut)
      | none =>
        if (es.filter (fun e2 => decide (e2.type_ = t))) = [] then none
        else some ((es.filter (fun e2 => decide (e2.type_ = t))).map entityToOut) := by
  induction es generalizing acc with
  | nil => cases h : lookupGroup acc t <;> simp [h]
  | cons e rest ih =>
    simp only [List.foldl_cons]
    rw [ih]
    by_cases het : e.type_ = t
    · have hf : (List.filter (fun e2 => decide (e2.type_ = t)) (e :: rest))
          = e :: List.filter (fun e2 => decide (e2.type_ = t)) rest := by
        simp [List.filter_cons, het]
      rw [lookupGroup_groupStep, if_pos het, hf]
      cases h : lookupGroup acc t with
      | some v => simp
      | none => simp
    · have hf : (List.filter (fun e2 => decide (e2.type_ = t)) (e :: rest))
          = List.filter (fun e2 => decide (e2.type_ = t)) rest := by
        simp [List.filter_cons, het]
      rw [lookupGroup_groupStep, if_neg het, hf]

lemma groupEntities_lookup (es : List Entity) (t : String) :
    lookupGroup (groupEntities es) t =
      if (es.filter (fun e2 => decide (e2.type_ = t))) = [] then none
      else some ((es.filter (fun e2 => decide (e2.type_ = t))).map entityToOut) := by
  unfold groupEntities
  rw [foldl_groupStep_lookup]
  rfl


lemma runPipeline_delete_irrel (docai : BlobData → String → Option Document)
    (df uf g g' : String → String → Bool) (ob pid ib fn ct ts : String) (win : World) :
    (runPipeline docai ⟨df, uf, g⟩ ob pid ib fn ct ts win).1
      = (runPipeline docai ⟨df, uf, g'⟩ ob pid ib fn ct ts win).1 := by
  simp only [runPipeline]
  cases hdl : (if df ib fn then none else win.store ib fn) with
  | none => simp [hdl]
  | some blob =>
    cases hdoc : docai blob.data ct with
    | none => simp [hdl, hdoc]
    | some document =>
      by_cases hup : uf ob (outputWriteKey fn) = true
      · simp [hdl, hdoc, hup]
      · by_cases hdel1 : g ib fn = true <;> by_cases hdel2 : g' ib fn = true <;>
          simp [hdl, hdoc, hup, hdel1, hdel2]

/-- C1 (code bug): the durable existence check queries `invoice123.txt` while
the persistence step writes `invoice123.json`. A second invocation for the same
source object therefore does not terminate at SkipAlreadyOutput: it passes the
existence check, performs a second extraction call and writes again. -/
theorem C1_check_write_key_mismatch :
    outcomeOf c1run1 = some Outcome.success ∧
    c1w1.extractionCalls = 1 ∧
    (c1w1.store "out" "invoice123.json").isSome = true ∧
    outcomeOf c1run2 = some Outcome.success ∧
    outcomeOf c1run2 ≠ some Outcome.skipAlreadyOutput ∧
    (worldOf c1run2 w0).extractionCalls = 2 ∧
    outputCheckKey "invoice123.pdf" = "invoice123.txt" ∧
    outputWriteKey "invoice123.pdf" = "invoice123.json" ∧
    outputCheckKey "invoice123.pdf" ≠ outputWriteKey "invoice123.pdf" := by
  exact ⟨rfl, rfl, rfl, rfl, by decide, rfl, rfl, rfl, by decide⟩

/-- C2 counterexample: for the notification `report.json` the name-pattern gate
does not fire (the gate only matches keys ending in ".txt" or containing
"_verarbeitet"); the decision is SkipWrongType, not SkipAlreadyProcessedName. -/
theorem C2_report_json_not_name_skipped :
    outcomeOf (process_document_from_gcs envOk docaiOk noFaults c2event none 0 "t" w0)
      = some Outcome.skipWrongType ∧
    some Outcome.skipWrongType ≠ some Outcome.skipAlreadyProcessedName := by
  exact ⟨rfl, by decide⟩

/-- C2 (amended): for every notification whose key ends with ".txt" or contains
"_verarbeitet" (complete configuration, source bucket different from the output
bucket), the name-pattern gate fires: the decision is SkipAlreadyProcessedName,
the world is returned untouched and no extraction call is made, independent of
content type, blob store, cache, delivery id, faults and extraction client. -/
theorem C2_name_gate_fires (p l pr ob : String) (docai : BlobData → String → Option Document)
    (faults : Faults) (ib fn : String) (ct ev eid : Option String) (now : Nat)
    (ts : String) (w : World)
    (hname : alreadyProcessedName fn = true) (hsl : ib ≠ ob) :
    process_document_from_gcs ⟨some p, some l, some pr, some ob⟩ docai faults
      ⟨some ib, some fn, ct, ev⟩ eid now ts w
      = Except.ok (Outcome.skipAlreadyProcessedName, w) := by
  have hpre : preGates ob ib fn (Option.getD ct "")
      = some Outcome.skipAlreadyProcessedName := by
    unfold preGates
    rw [if_neg hsl, if_pos hname]
  exact process_pre_skip ⟨some p, some l, some pr, some ob⟩ docai faults
    ⟨some ib, some fn, ct, ev⟩ eid now ts w p l pr ob ib fn _ rfl rfl rfl hpre

/-- C2 witness: the amended name-gate theorem at a concrete notification. -/
theorem C2_name_gate_witness :
    alreadyProcessedName "report.txt" = true ∧ ("in" : String) ≠ "out" ∧
    process_document_from_gcs envOk docaiOk noFaults
      ⟨some "in", some "report.txt", some "application/pdf", none⟩ none 0 "t" w0
      = Except.ok (Outcome.skipAlreadyProcessedName, w0) := by
  refine ⟨by decide, by decide, ?_⟩
  exact C2_name_gate_fires "proj" "eu" "proc1" "out" docaiOk noFaults "in" "report.txt"
    (some "application/pdf") none none 0 "t" w0 (by decide) (by decide)

/-- C3 counterexample: a POST whose payload lacks the `bucket` field makes the
pipeline raise at `event["bucket"]`; the error crosses the HTTP boundary
instead of an empty 204 response. -/
theorem C3_missing_bucket_raises :
    http_entrypoint envOk docaiOk noFaults none
      ⟨none, some "f.pdf", some "application/pdf", none⟩ 0 "t" w0
      = Except.error "KeyError: bucket or name missing" := rfl

/-- C3 (amended): whenever the event payload carries both `bucket` and `name`,
the HTTP handler answers with the empty body and status 204, whatever the
internal outcome (any skip, extraction failure, write failure or success). -/
theorem C3_responds_204 (env : Env) (docai : BlobData → String → Option Document)
    (faults : Faults) (hdr : Option String) (ib fn : String) (ct ev : Option String)
    (now : Nat) (ts : String) (w : World) :
    ∃ w', http_entrypoint env docai faults hdr ⟨some ib, some fn, ct, ev⟩ now ts w
      = Except.ok (("", 204), w') := by
  unfold http_entrypoint
  obtain ⟨d, w', hw⟩ := process_no_error env docai faults ib fn ct ev
    (match hdr with
     | some h => some h
     | none => Event.eventId ⟨some ib, some fn, ct, ev⟩) now ts w
  rw [hw]
  exact ⟨w', rfl⟩

/-- C4: the OutputRecord is assembled deterministically: (i) the grouped entity
types appear in first-seen order; (ii) each type's list holds exactly that
type's entities in append order; (iii) in the concrete scenario the persisted
object invoice123.json holds entities.total_amount =
[{value "42.00", confidence 0.91, normalized_value null}] and raw_text
"Total: 42.00", and the source object is deleted afterward. -/
theorem C4_output_record_assembly :
    (∀ es : List Entity, (groupEntities es).map Prod.fst = firstSeen (es.map Entity.type_)) ∧
    (∀ (es : List Entity) (t : String),
      lookupGroup (groupEntities es) t =
        if (es.filter (fun e2 => decide (e2.type_ = t))) = [] then none
        else some ((es.filter (fun e2 => decide (e2.type_ = t))).map entityToOut)) ∧
    outcomeOf c4run = some Outcome.success ∧
    (worldOf c4run w0).store "out" "invoice123.json"
      = some ⟨BlobData.jsonRecord c4expected, "application/json; charset=utf-8"⟩ ∧
    lookupGroup c4expected.entities "total_amount" = some [⟨"42.00", conf091, none⟩] ∧
    c4expected.raw_text = "Total: 42.00" ∧
    (worldOf c4run w0).store "in" "invoice123.pdf" = none := by
  exact ⟨groupEntities_mapfst, groupEntities_lookup, rfl, by decide, by decide, rfl, by decide⟩

/-- C5: cleanup is gated strictly on write success: (i) any outcome other than
success leaves the blob store untouched, so the source object is only ever
deleted after a successful write; (ii) a WriteFailed outcome only arises from an
upload fault on the computed output key; (iii) the outcome never depends on
whether the delete of the source fails, so a delete failure after a successful
write is non-fatal. -/
theorem C5_cleanup_gated_on_write (p l pr ob : String)
    (docai : BlobData → String → Option Document)
    (df uf g g' : String → String → Bool) (ib fn : String) (ct ev eid : Option String)
    (now : Nat) (ts : String) (w : World) :
    (∀ d w', process_document_from_gcs ⟨some p, some l, some pr, some ob⟩ docai ⟨df, uf, g⟩
        ⟨some ib, some fn, ct, ev⟩ eid now ts w = Except.ok (d, w') →
      d ≠ Outcome.success → w'.store = w.store) ∧
    (∀ d w', process_document_from_gcs ⟨some p, some l, some pr, some ob⟩ docai ⟨df, uf, g⟩
        ⟨some ib, some fn, ct, ev⟩ eid now ts w = Except.ok (d, w') →
      d = Outcome.writeFailed → uf ob (outputWriteKey fn) = true) ∧
    outcomeOf (process_document_from_gcs ⟨some p, some l, some pr, some ob⟩ docai ⟨df, uf, g⟩
        ⟨some ib, some fn, ct, ev⟩ eid now ts w)
      = outcomeOf (process_document_from_gcs ⟨some p, some l, some pr, some ob⟩ docai
        ⟨df, uf, g'⟩ ⟨some ib, some fn, ct, ev⟩ eid now ts w) := by
  refine ⟨fun d w' h hd => (process_inv _ _ _ _ _ _ _ _ _ _ h).1 hd,
    fun d w' h hwf => ?_, ?_⟩
  · obtain ⟨a, b, c, ob2, hcfg, fn2, hfn2, hup⟩ :=
      (process_inv _ _ _ _ _ _ _ _ _ _ h).2.1 hwf
    rw [show readConfig ⟨some p, some l, some pr, some ob⟩ = some (p, l, pr, ob) from rfl]
      at hcfg
    have hcfg2 := Option.some.inj hcfg
    injection hcfg2 with ha h2
    injection h2 with hb h3
    injection h3 with hc hob
    have hfn3 : some fn = some fn2 := hfn2
    injection hfn3 with hfn4
    rw [hob, hfn4]
    exact hup
  · cases hpre : preGates ob ib fn (Option.getD ct "") with
    | some d0 =>
      rw [process_pre_skip ⟨some p, some l, some pr, some ob⟩ docai ⟨df, uf, g⟩
          ⟨some ib, some fn, ct, ev⟩ eid now ts w p l pr ob ib fn d0 rfl rfl rfl hpre,
        process_pre_skip ⟨some p, some l, some pr, some ob⟩ docai ⟨df, uf, g'⟩
          ⟨some ib, some fn, ct, ev⟩ eid now ts w p l pr ob ib fn d0 rfl rfl rfl hpre]
    | none =>
      by_cases hex : (w.store ob (outputCheckKey fn)).isSome = true
      · rw [process_exists_skip ⟨some p, some l, some pr, some ob⟩ docai ⟨df, uf, g⟩
            ⟨some ib, some fn, ct, ev⟩ eid now ts w p l pr ob ib fn rfl rfl rfl hpre hex,
          process_exists_skip ⟨some p, some l, some pr, some ob⟩ docai ⟨df, uf, g'⟩
            ⟨some ib, some fn, ct, ev⟩ eid now ts w p l pr ob ib fn rfl rfl rfl hpre hex]
      · have hexn : w.store ob (outputCheckKey fn) = none := by
          cases ho : w.store ob (outputCheckKey fn) with
          | none => rfl
          | some bb => rw [ho] at hex; simp at hex
        cases hdc : dedupCheck w.cache eid ib fn now with
        | none =>
          cases eid with
          | none => simp [dedupCheck] at hdc
          | some e =>
            rw [process_dup_skip ⟨some p, some l, some pr, some ob⟩ docai ⟨df, uf, g⟩
                ⟨some ib, some fn, ct, ev⟩ e now ts w p l pr ob ib fn rfl rfl rfl
                hpre hexn hdc,
              process_dup_skip ⟨some p, some l, some pr, some ob⟩ docai ⟨df, uf, g'⟩
                ⟨some ib, some fn, ct, ev⟩ e now ts w p l pr ob ib fn rfl rfl rfl
                hpre hexn hdc]
        | some cache1 =>
          rw [process_runs_pipeline ⟨some p, some l, some pr, some ob⟩ docai ⟨df, uf, g⟩
              ⟨some ib, some fn, ct, ev⟩ eid now ts w p l pr ob ib fn cache1 rfl rfl rfl
              hpre hexn hdc,
            process_runs_pipeline ⟨some p, some l, some pr, some ob⟩ docai ⟨df, uf, g'⟩
              ⟨some ib, some fn, ct, ev⟩ eid now ts w p l pr ob ib fn cache1 rfl rfl rfl
              hpre hexn hdc]
          exact congrArg some (runPipeline_delete_irrel docai df uf g g' ob pr ib fn
            (Option.getD ct "") ts ⟨w.store, cache1, w.extractionCalls⟩)

/-- C5 witness: with a forced write failure the source store is untouched and
the failure is traced to the upload fault on the computed output key. -/
theorem C5_cleanup_witness :
    (worldOf c5run w0).store = w0.store ∧
    uploadFailsAll.uploadFails "out" (outputWriteKey "invoice123.pdf") = true ∧
    Outcome.writeFailed ≠ Outcome.success := by
  have h := C5_cleanup_gated_on_write "proj" "eu" "proc1" "out" docaiOk
    (fun _ _ => false) (fun _ _ => true) (fun _ _ => false) (fun _ _ => false)
    "in" "invoice123.pdf" (some "application/pdf") none none 3 "t" w0
  refine ⟨?_, ?_, by decide⟩
  · exact h.1 Outcome.writeFailed (worldOf c5run w0) rfl (by decide)
  · exact h.2.1 Outcome.writeFailed (worldOf c5run w0) rfl rfl

/-- C6 counterexample: on an extraction failure with a delivery id present, the
state is NOT all left unchanged: the dedup cache keeps the delivery entry
recorded before the extraction call. -/
theorem C6_cache_changed_on_failure :
    outcomeOf c6run = some Outcome.extractionFailed ∧
    (worldOf c6run w0).cache = [("e1_in_invoice123.pdf", 50)] ∧
    (worldOf c6run w0).cache ≠ w0.cache := by
  exact ⟨rfl, by decide, by decide⟩

/-- C6 (amended): on any extraction failure (download failure or remote error)
the pipeline terminates without deleting the source object and without writing
any output object: the blob store is left unchanged. The in-memory dedup entry
recorded before extraction remains, so an identical redelivery within the TTL
is suppressed rather than retried. -/
theorem C6_extraction_failure_store_untouched (env : Env)
    (docai : BlobData → String → Option Document) (faults : Faults) (event : Event)
    (eid : Option String) (now : Nat) (ts : String) (w w' : World)
    (h : process_document_from_gcs env docai faults event eid now ts w
      = Except.ok (Outcome.extractionFailed, w')) :
    w'.store = w.store := by
  exact (process_inv _ _ _ _ _ _ _ _ _ _ h).1 (fun hc => Outcome.noConfusion hc)

/-- C6 witness: the amended theorem at the concrete failing run. -/
theorem C6_extraction_failure_witness :
    (worldOf c6run w0).store = w0.store := by
  exact C6_extraction_failure_store_untouched envOk docaiFail noFaults eventPdf
    (some "e1") 50 "t" w0 (worldOf c6run w0) rfl

/-- C7: delivery-identity suppression. Given a first invocation with delivery
id eid at time t1 that proceeded past all gates, (i) a repeat delivery of the
same (deliveryId, sourceContainer, key) within the TTL (t2 - t1 < 600) is
skipped as SkipDuplicateDelivery with the world untouched; (ii) once the TTL
has elapsed the repeat proceeds to the pipeline again; (iii) invariant: a cache
entry for the delivery key with now - lastSeen < 600 always yields
SkipDuplicateDelivery when the earlier gates pass and the output is absent. -/
theorem C7_delivery_suppression (p l pr ob : String)
    (docai docai2 : BlobData → String → Option Document) (faults faults2 : Faults)
    (ib fn : String) (ct ev ev2 : Option String) (eid : String) (t1 t2 : Nat)
    (ts1 ts2 : String) (w w1 : World) (d1 : Outcome)
    (h1 : process_document_from_gcs ⟨some p, some l, some pr, some ob⟩ docai faults
        ⟨some ib, some fn, ct, ev⟩ (some eid) t1 ts1 w = Except.ok (d1, w1))
    (hd1 : d1 = Outcome.extractionFailed ∨ d1 = Outcome.writeFailed ∨
      d1 = Outcome.success) :
    (t2 - t1 < 600 →
      process_document_from_gcs ⟨some p, some l, some pr, some ob⟩ docai2 faults2
        ⟨some ib, some fn, ct, ev2⟩ (some eid) t2 ts2 w1
        = Except.ok (Outcome.skipDuplicateDelivery, w1)) ∧
    (¬ (t2 - t1 < 600) →
      ∀ d2 w2, process_document_from_gcs ⟨some p, some l, some pr, some ob⟩ docai2 faults2
          ⟨some ib, some fn, ct, ev2⟩ (some eid) t2 ts2 w1 = Except.ok (d2, w2) →
        d2 = Outcome.extractionFailed ∨ d2 = Outcome.writeFailed ∨
          d2 = Outcome.success) ∧
    (∀ (wx : World) (prev : Nat),
      cacheLookup wx.cache (cacheKeyOf eid ib fn) = some prev →
      t2 - prev < 600 →
      wx.store ob (outputCheckKey fn) = none →
      process_document_from_gcs ⟨some p, some l, some pr, some ob⟩ docai2 faults2
        ⟨some ib, some fn, ct, ev2⟩ (some eid) t2 ts2 wx
        = Except.ok (Outcome.skipDuplicateDelivery, wx)) := by
  obtain ⟨hpre, hex, hcn, hcs, hfr⟩ := proceed_inv ⟨some p, some l, some pr, some ob⟩
    docai faults ⟨some ib, some fn, ct, ev⟩ (some eid) t1 ts1 w d1 w1
    p l pr ob ib fn rfl rfl rfl h1 hd1
  have hibob : ib ≠ ob := ((preGates_none_iff ob ib fn _).mp hpre).1
  have hw1cache : w1.cache = cacheSweep (cacheSet w.cache (cacheKeyOf eid ib fn) t1) t1 :=
    hcs eid rfl
  have hlook : cacheLookup w1.cache (cacheKeyOf eid ib fn) = some t1 := by
    rw [hw1cache]
    exact cacheLookup_set_sweep _ _ _ _ (by omega)
  have hne1 : ¬ (ob = ob ∧ outputCheckKey fn = outputWriteKey fn) :=
    fun hcc => checkKey_ne_writeKey fn hcc.2
  have hne2 : ¬ (ob = ib ∧ outputCheckKey fn = fn) := fun hcc => hibob hcc.1.symm
  have hex1 : w1.store ob (outputCheckKey fn) = none := by
    rw [hfr ob (outputCheckKey fn) hne1 hne2]
    exact hex
  refine ⟨fun httl => ?_, fun httl d2 w2 h2 => ?_, fun wx prev hlk httl hexx => ?_⟩
  · exact process_dup_skip ⟨some p, some l, some pr, some ob⟩ docai2 faults2
      ⟨some ib, some fn, ct, ev2⟩ eid t2 ts2 w1 p l pr ob ib fn rfl rfl rfl
      hpre hex1 (dedupCheck_hit _ _ _ _ _ _ hlook httl)
  · rw [process_runs_pipeline ⟨some p, some l, some pr, some ob⟩ docai2 faults2
      ⟨some ib, some fn, ct, ev2⟩ (some eid) t2 ts2 w1 p l pr ob ib fn
      _ rfl rfl rfl hpre hex1 (dedupCheck_stale _ _ _ _ _ _ hlook httl)] at h2
    injection h2 with h3
    exact (runPipeline_inv _ _ _ _ _ _ _ _ _ _ _ h3).2.1
  · exact process_dup_skip ⟨some p, some l, some pr, some ob⟩ docai2 faults2
      ⟨some ib, some fn, ct, ev2⟩ eid t2 ts2 wx p l pr ob ib fn rfl rfl rfl
      hpre hexx (dedupCheck_hit _ _ _ _ _ _ hlk httl)

/-- C7 witness: the suppression theorem at the concrete e7 scenario (second
delivery at 400 suppressed; at 700 the repeat proceeds; the invariant instance
on a world with a live cache entry). -/
theorem C7_delivery_suppression_witness :
    process_document_from_gcs envOk docaiOk noFaults eventPdf (some "e7") 400 "t2" c7w1
      = Except.ok (Outcome.skipDuplicateDelivery, c7w1) ∧
    (Outcome.extractionFailed = Outcome.extractionFailed ∨
     Outcome.extractionFailed = Outcome.writeFailed ∨
     Outcome.extractionFailed = Outcome.success) ∧
    process_document_from_gcs envOk docaiOk noFaults eventPdf (some "e7") 400 "t2"
        c7cacheWorld
      = Except.ok (Outcome.skipDuplicateDelivery, c7cacheWorld) := by
  have h400 := C7_delivery_suppression "proj" "eu" "proc1" "out" docaiOk docaiOk
    noFaults noFaults "in" "invoice123.pdf" (some "application/pdf") none none "e7"
    100 400 "t" "t2" w0 c7w1 Outcome.success rfl (Or.inr (Or.inr rfl))
  have h700 := C7_delivery_suppression "proj" "eu" "proc1" "out" docaiOk docaiOk
    noFaults noFaults "in" "invoice123.pdf" (some "application/pdf") none none "e7"
    100 700 "t" "t3" w0 c7w1 Outcome.success rfl (Or.inr (Or.inr rfl))
  refine ⟨h400.1 (by decide), ?_,
    h400.2.2 c7cacheWorld 100 (by decide) (by decide) (by decide)⟩
  exact h700.2.1 (by decide) Outcome.extractionFailed
    (worldOf (process_document_from_gcs envOk docaiOk noFaults eventPdf (some "e7") 700
      "t3" c7w1) c7w1) rfl

/-- C8: for a delivery that passes the gates up to and including the existence
check, the cache entry is recorded before download/extraction/write run: even
when the attempt fails (extraction or write) the entry carries the invocation
time, and a redelivery of the same (deliveryId, sourceContainer, key) within
the TTL never proceeds past the delivery-identity gate. -/
theorem C8_entry_recorded_before_work (p l pr ob : String)
    (docai docai2 : BlobData → String → Option Document) (faults faults2 : Faults)
    (ib fn : String) (ct ev ev2 : Option String) (eid : String) (t1 t2 : Nat)
    (ts1 ts2 : String) (w w1 : World) (d1 : Outcome)
    (h1 : process_document_from_gcs ⟨some p, some l, some pr, some ob⟩ docai faults
        ⟨some ib, some fn, ct, ev⟩ (some eid) t1 ts1 w = Except.ok (d1, w1))
    (hd1 : d1 = Outcome.extractionFailed ∨ d1 = Outcome.writeFailed) :
    cacheLookup w1.cache (cacheKeyOf eid ib fn) = some t1 ∧
    (t2 - t1 < 600 →
      process_document_from_gcs ⟨some p, some l, some pr, some ob⟩ docai2 faults2
        ⟨some ib, some fn, ct, ev2⟩ (some eid) t2 ts2 w1
        = Except.ok (Outcome.skipDuplicateDelivery, w1)) := by
  have hd1' : d1 = Outcome.extractionFailed ∨ d1 = Outcome.writeFailed ∨
      d1 = Outcome.success := by
    rcases hd1 with h | h
    · exact Or.inl h
    · exact Or.inr (Or.inl h)
  obtain ⟨hpre, hex, hcn, hcs, hfr⟩ := proceed_inv ⟨some p, some l, some pr, some ob⟩
    docai faults ⟨some ib, some fn, ct, ev⟩ (some eid) t1 ts1 w d1 w1
    p l pr ob ib fn rfl rfl rfl h1 hd1'
  have hibob : ib ≠ ob := ((preGates_none_iff ob ib fn _).mp hpre).1
  have hw1cache : w1.cache = cacheSweep (cacheSet w.cache (cacheKeyOf eid ib fn) t1) t1 :=
    hcs eid rfl
  have hlook : cacheLookup w1.cache (cacheKeyOf eid ib fn) = some t1 := by
    rw [hw1cache]
    exact cacheLookup_set_sweep _ _ _ _ (by omega)
  have hne1 : ¬ (ob = ob ∧ outputCheckKey fn = outputWriteKey fn) :=
    fun hcc => checkKey_ne_writeKey fn hcc.2
  have hne2 : ¬ (ob = ib ∧ outputCheckKey fn = fn) := fun hcc => hibob hcc.1.symm
  have hex1 : w1.store ob (outputCheckKey fn) = none := by
    rw [hfr ob (outputCheckKey fn) hne1 hne2]
    exact hex
  refine ⟨hlook, fun httl => ?_⟩
  exact process_dup_skip ⟨some p, some l, some pr, some ob⟩ docai2 faults2
    ⟨some ib, some fn, ct, ev2⟩ eid t2 ts2 w1 p l pr ob ib fn rfl rfl rfl
    hpre hex1 (dedupCheck_hit _ _ _ _ _ _ hlook httl)

/-- C8 witness: the failing e8 delivery records its entry at time 200, and the
redelivery at time 300 is suppressed. -/
theorem C8_entry_recorded_witness :
    cacheLookup c8w1.cache (cacheKeyOf "e8" "in" "invoice123.pdf") = some 200 ∧
    process_document_from_gcs envOk docaiFail noFaults eventPdf (some "e8") 300 "t2" c8w1
      = Except.ok (Outcome.skipDuplicateDelivery, c8w1) := by
  have h := C8_entry_recorded_before_work "proj" "eu" "proc1" "out" docaiFail docaiFail
    noFaults noFaults "in" "invoice123.pdf" (some "application/pdf") none none "e8"
    200 300 "t" "t2" w0 c8w1 Outcome.extractionFailed rfl (Or.inl rfl)
  exact ⟨h.1, h.2 (by decide)⟩

/-- C9: without a delivery id the dedup cache is completely untouched (no entry
read, recorded or swept), the decision is never SkipDuplicateDelivery, and the
run behaves exactly as the run with a fresh delivery id: same decision, same
blob store, same number of extraction calls (only the cache differs). -/
theorem C9_no_eventid_cache_frame (p l pr ob : String)
    (docai : BlobData → String → Option Document) (faults : Faults)
    (ib fn : String) (ct ev : Option String) (now : Nat) (ts : String) (w : World) :
    (∀ d w', process_document_from_gcs ⟨some p, some l, some pr, some ob⟩ docai faults
        ⟨some ib, some fn, ct, ev⟩ none now ts w = Except.ok (d, w') →
      w'.cache = w.cache ∧ d ≠ Outcome.skipDuplicateDelivery) ∧
    (∀ (e : String) (d : Outcome) (w' : World),
      cacheLookup w.cache (cacheKeyOf e ib fn) = none →
      process_document_from_gcs ⟨some p, some l, some pr, some ob⟩ docai faults
        ⟨some ib, some fn, ct, ev⟩ none now ts w = Except.ok (d, w') →
      ∃ w2, process_document_from_gcs ⟨some p, some l, some pr, some ob⟩ docai faults
          ⟨some ib, some fn, ct, ev⟩ (some e) now ts w = Except.ok (d, w2) ∧
        w2.store = w'.store ∧ w2.extractionCalls = w'.extractionCalls) := by
  refine ⟨fun d w' h => (process_inv _ _ _ _ _ _ _ _ _ _ h).2.2 rfl,
    fun e d w' hfresh h => process_eid_fresh ⟨some p, some l, some pr, some ob⟩
      docai faults ⟨some ib, some fn, ct, ev⟩ now ts w e d w'
      p l pr ob ib fn rfl rfl rfl hfresh h⟩

/-- C9 witness: the no-id run leaves the cache unchanged and coincides with the
fresh-id e9 run on decision, store and extraction calls. -/
theorem C9_no_eventid_witness :
    (worldOf c9run w0).cache = w0.cache ∧
    (∃ w2, process_document_from_gcs envOk docaiOk noFaults eventPdf (some "e9") 7 "t" w0
        = Except.ok (Outcome.success, w2) ∧
      w2.store = (worldOf c9run w0).store ∧
      w2.extractionCalls = (worldOf c9run w0).extractionCalls) := by
  have h := C9_no_eventid_cache_frame "proj" "eu" "proc1" "out" docaiOk noFaults
    "in" "invoice123.pdf" (some "application/pdf") none 7 "t" w0
  refine ⟨(h.1 Outcome.success (worldOf c9run w0) rfl).1, ?_⟩
  exact h.2 "e9" Outcome.success (worldOf c9run w0) (by decide) rfl

/-- C10: in the assembled record, total_pages equals the number of pages (0
when there are none), and dimensions is present iff there is at least one page,
holding exactly the first page's dimension; checked also on the persisted
two-page run. -/
theorem C10_document_info_pages :
    (∀ (fn pid ts : String) (doc : Document),
      (buildRecord fn pid ts doc).document_info.total_pages = doc.pages.length ∧
      (buildRecord fn pid ts doc).document_info.dimensions
        = (doc.pages.head?).map Page.dimension ∧
      ((buildRecord fn pid ts doc).document_info.dimensions).isSome
        = !doc.pages.isEmpty) ∧
    (worldOf c10run w0).store "out" "invoice123.json"
      = some ⟨BlobData.jsonRecord c10expected, "application/json; charset=utf-8"⟩ ∧
    c10expected.document_info.total_pages = 2 ∧
    c10expected.document_info.dimensions = some dim2p := by
  refine ⟨fun fn pid ts doc => ?_, by decide, rfl, rfl⟩
  obtain ⟨txt, pages, ents⟩ := doc
  cases pages with
  | nil => exact ⟨rfl, rfl, rfl⟩
  | cons pg ps => exact ⟨rfl, rfl, rfl⟩

end Datenblaetter
